import Mathlib

/-!
Verification development for the Kobold API client adapter
(`helpers/koboldai.py`).  The Python source is shallowly embedded:
pure string manipulation becomes Lean functions on `String`/`List Char`,
JSON values become an inductive `JVal`, HTTP exchanges become explicit
response parameters, Python exceptions become `Except`, and the mutable
`genkeys` dictionary becomes explicit state passing.
-/

/-! ## Python string primitives -/

/-- Whitespace characters stripped by Python `str.strip` / `str.rstrip`
(ASCII portion, which is what the adapter's texts use). -/
def isPySpace (c : Char) : Bool :=
  c = ' ' || c = '\t' || c = '\n' || c = '\x0d' || c = '\x0b' || c = '\x0c'

/-- Prefix test: `beginsWith p l` is true when the char list `p` is a prefix of `l`. -/
def beginsWith : List Char → List Char → Bool
  | [], _ => true
  | _ :: _, [] => false
  | p :: ps, c :: cs => p = c && beginsWith ps cs

/-- Suffix test `endsWithL l s`: the char list `s` is a suffix of `l`
(Python `l.endswith(s)`). -/
def endsWithL (l s : List Char) : Bool :=
  beginsWith s.reverse l.reverse

/-- Substring test `hasSub pat l`: `pat` occurs as a contiguous sublist of `l`
(Python `pat in l` for strings). -/
def hasSub (pat : List Char) : List Char → Bool
  | [] => beginsWith pat []
  | c :: t => beginsWith pat (c :: t) || hasSub pat t

/-- Python `str.rstrip()` on a char list. -/
def rstripL (l : List Char) : List Char :=
  (l.reverse.dropWhile isPySpace).reverse

/-- Python `str.strip()` on a char list. -/
def stripL (l : List Char) : List Char :=
  rstripL (l.dropWhile isPySpace)

/-- Python `str.strip()`. -/
def pyStrip (s : String) : String :=
  ⟨stripL s.data⟩

/-- Python `str.rstrip()`. -/
def pyRstrip (s : String) : String :=
  ⟨rstripL s.data⟩

/-- Python `t.endswith(s)`. -/
def pyEndsWith (t s : String) : Bool :=
  endsWithL t.data s.data

/-- Python `t[: -len(s)]`.  Note the Python quirk: when `len(s) = 0` the
slice `t[:-0]` is `t[:0]`, the empty string. -/
def pyCutSuffix (t s : String) : String :=
  if s.data.length = 0 then "" else ⟨t.data.take (t.data.length - s.data.length)⟩

/-! ## JSON values and Python subscript semantics -/

/-- JSON values as returned by `response.json()`. -/
inductive JVal where
  | jnull : JVal
  | jbool : Bool → JVal
  | jnum : ℚ → JVal
  | jstr : String → JVal
  | jarr : List JVal → JVal
  | jobj : List (String × JVal) → JVal

/-- Exceptions that can arise while evaluating a Python subscript,
`in`-test or `len` on a JSON value. -/
inductive SubErr where
  | typeErr : SubErr
  | keyErr : SubErr
  | indexErr : SubErr

/-- Python exceptions modelled in this development. -/
inductive PyErr where
  | connectionError : PyErr
  | httpError : Nat → PyErr
  | jsonDecodeError : PyErr
  | typeError : PyErr
  | keyError : PyErr
  | indexError : PyErr
  | attributeError : PyErr
  | valueError : JVal → PyErr
  | unboundLocalError : PyErr

/-- Lift a subscript-evaluation exception into the general exception type. -/
def SubErr.toPyErr : SubErr → PyErr
  | .typeErr => .typeError
  | .keyErr => .keyError
  | .indexErr => .indexError

/-- Python `key in j` for a JSON value `j` and a string `key`:
dict membership, list membership (string equality against elements),
substring test for strings, `TypeError` otherwise. -/
def pyContains (j : JVal) (key : String) : Except SubErr Bool :=
  match j with
  | .jobj fields => .ok (fields.any (fun p => p.1 == key))
  | .jarr xs => .ok (xs.any (fun v => match v with | .jstr s => s == key | _ => false))
  | .jstr s => .ok (hasSub key.data s.data)
  | _ => .error .typeErr

/-- Python `j[key]` for a string `key`: dict lookup (`KeyError` when the
key is missing), `TypeError` on anything else. -/
def pyIndexS (j : JVal) (key : String) : Except SubErr JVal :=
  match j with
  | .jobj fields =>
    match fields.find? (fun p => p.1 == key) with
    | some p => .ok p.2
    | none => .error .keyErr
  | _ => .error .typeErr

/-- Python `j[0]`: first list element, first character of a string
(as a one-character string), `KeyError` for a JSON object (its keys are
strings, never `0`), `TypeError` otherwise. -/
def pyIndexZero (j : JVal) : Except SubErr JVal :=
  match j with
  | .jarr [] => .error .indexErr
  | .jarr (x :: _) => .ok x
  | .jstr s =>
    match s.data with
    | [] => .error .indexErr
    | c :: _ => .ok (.jstr ⟨[c]⟩)
  | .jobj _ => .error .keyErr
  | _ => .error .typeErr

/-- Python `len(j)`: length of a list, string or dict,
`TypeError` otherwise. -/
def pyLen (j : JVal) : Except SubErr Nat :=
  match j with
  | .jarr xs => .ok xs.length
  | .jstr s => .ok s.data.length
  | .jobj fields => .ok fields.length
  | _ => .error .typeErr

/-! ## Python `float()` on plain decimal strings -/

/-- Numeric value of a decimal digit character. -/
def digitVal (c : Char) : Nat := c.toNat - 48

/-- Value of a digit list read in base 10. -/
def digitsVal (l : List Char) : Nat :=
  l.foldl (fun a c => a * 10 + digitVal c) 0

/-- Python `float(s)` for plain decimal string literals: optional sign,
integer digits, optional fractional part (exponents and the special
`inf` / `nan` spellings are outside the adapter's inputs and are not
modelled).  Returns `none` where Python raises `ValueError`. -/
def parseUnsignedDec (l : List Char) : Option ℚ :=
  match l.span (fun c => c.isDigit) with
  | (intPart, rest) =>
    match rest with
    | [] => if intPart.isEmpty then none else some (digitsVal intPart : ℚ)
    | '.' :: fracRest =>
      if fracRest.all (fun c => c.isDigit) then
        if intPart.isEmpty && fracRest.isEmpty then none
        else some ((digitsVal intPart : ℚ) + (digitsVal fracRest : ℚ) / ((10 : ℚ) ^ fracRest.length))
      else none
    | _ => none

/-- Python `float(s)` on a string, with surrounding whitespace stripped. -/
def pyFloatOfString (s : String) : Option ℚ :=
  match stripL s.data with
  | '-' :: rest => (parseUnsignedDec rest).map (fun q => -q)
  | '+' :: rest => parseUnsignedDec rest
  | l => parseUnsignedDec l

/-- Python `float(v)` on a JSON value: numbers pass through, strings are
parsed, booleans become 0 or 1; everything else raises (`none`). -/
def pyFloat : JVal → Option ℚ
  | .jnum q => some q
  | .jstr s => pyFloatOfString s
  | .jbool b => some (if b then 1 else 0)
  | _ => none

/-! ## Dictionaries -/

/-- Lookup in a JSON object body (helper for stating properties about
request bodies). -/
def lookupJ (m : List (String × JVal)) (k : String) : Option JVal :=
  (m.find? (fun p => p.1 == k)).map (fun p => p.2)

/-- Lookup in the `genkeys` dictionary (keys are the `channel_id`
values, which may be Python `None`). -/
def dictFind (m : List (Option String × String)) (k : Option String) : Option String :=
  (m.find? (fun p => p.1 == k)).map (fun p => p.2)

/-- Python dict assignment `m[k] = v`: overwrite an existing entry,
otherwise append a new one. -/
def dictSet (m : List (Option String × String)) (k : Option String) (v : String) :
    List (Option String × String) :=
  if m.any (fun p => p.1 == k) then m.map (fun p => if p.1 == k then (k, v) else p)
  else m ++ [(k, v)]

/-- Number of entries of the registry carrying key `k`. -/
def countKey (m : List (Option String × String)) (k : Option String) : Nat :=
  (m.filter (fun p => p.1 == k)).length

/-- The registry's keys are pairwise distinct (true of every Python
dict; maintained by `dictSet`). -/
def nodupKeys (m : List (Option String × String)) : Prop :=
  (m.map (fun p => p.1)).Nodup

/-! ## The HTTP layer -/

/-- An HTTP response: status code and body.  `body = none` models a
non-JSON body, on which `response.json()` raises. -/
structure HttpResp where
  status : Nat
  body : Option JVal

/-- Predicate for `response.raise_for_status()`: it raises for client and server error
statuses (400–599). -/
def httpFail (status : Nat) : Bool :=
  400 ≤ status && status < 600

/-! ## `clean_url` -/

/-- Function `clean_url` from the source: remove a trailing `/api` or a trailing
slash from the url if present. -/
def clean_url (url : String) : String :=
  if pyEndsWith url "/api" then ⟨url.data.take (url.data.length - 4)⟩
  else if pyEndsWith url "/" then ⟨url.data.take (url.data.length - 1)⟩
  else url

/-! ## The client class -/

/-- The `KoboldApiLLM` class: endpoint, sampling fields (with the
documented defaults), the `genkeys` registry and the `is_koboldcpp`
dialect flag.  Python floats are represented as rationals (no float
arithmetic is performed by the adapter). -/
structure KoboldApiLLM where
  endpoint : String
  use_story : Bool := false
  use_authors_note : Bool := false
  use_world_info : Bool := false
  use_memory : Bool := false
  max_context_length : Int := 1600
  max_length : Int := 80
  rep_pen : ℚ := 112/100
  rep_pen_range : Int := 1024
  rep_pen_slope : ℚ := 9/10
  temperature : ℚ := 6/10
  tfs : ℚ := 9/10
  top_a : ℚ := 9/10
  top_p : ℚ := 95/100
  top_k : Int := 0
  typical : ℚ := 1/2
  genkeys : List (Option String × String) := []
  is_koboldcpp : Bool := false

/-- Truthiness of the optional `stop` argument (`if stop:` in Python):
`None` and the empty list are falsy. -/
def stopTruthy : Option (List String) → Bool
  | none => false
  | some l => !l.isEmpty

/-- Method `_get_parameters` of the class: the JSON request body sent to
`/api/v1/generate` — the prompt, the fifteen sampling/config fields, and
`stop_sequence` exactly when `stop` is truthy. -/
def KoboldApiLLM._get_parameters (self : KoboldApiLLM) (prompt : String)
    (stop : Option (List String)) : List (String × JVal) :=
  let data : List (String × JVal) :=
    [("prompt", .jstr prompt),
     ("use_story", .jbool self.use_story),
     ("use_authors_note", .jbool self.use_authors_note),
     ("use_world_info", .jbool self.use_world_info),
     ("use_memory", .jbool self.use_memory),
     ("max_context_length", .jnum (self.max_context_length : ℚ)),
     ("max_length", .jnum (self.max_length : ℚ)),
     ("rep_pen", .jnum self.rep_pen),
     ("rep_pen_range", .jnum (self.rep_pen_range : ℚ)),
     ("rep_pen_slope", .jnum self.rep_pen_slope),
     ("temperature", .jnum self.temperature),
     ("tfs", .jnum self.tfs),
     ("top_a", .jnum self.top_a),
     ("top_p", .jnum self.top_p),
     ("top_k", .jnum (self.top_k : ℚ)),
     ("typical", .jnum self.typical)]
  if stopTruthy stop then
    data ++ [("stop_sequence", .jarr ((stop.getD []).map .jstr))]
  else data

/-! ## Response parsing (`_call`) -/

/-- The stop-sequence loop of `_call` / `_acall`:
`for sequence in stop: if text.endswith(sequence): text = text[:-len(sequence)].rstrip()`.
Each listed sequence is tested, in order, against the current text. -/
def stripStopSeqs (seqs : List String) (text : String) : String :=
  seqs.foldl (fun t sq => if pyEndsWith t sq then pyRstrip (pyCutSuffix t sq) else t) text

/-- Post-processing of the extracted raw text: initial `strip()`, then
the stop-sequence loop (which runs only when `stop is not None`). -/
def postProcess (raw : String) (stop : Option (List String)) : String :=
  let text := pyStrip raw
  match stop with
  | none => text
  | some seqs => stripStopSeqs seqs text

/-- The `_call` shape condition, with Python evaluation semantics:
`"results" in j and len(j["results"]) > 0 and "text" in j["results"][0]`. -/
def shapeCheck (j : JVal) : Except SubErr Bool := do
  let c1 ← pyContains j "results"
  if !c1 then return false
  let rv ← pyIndexS j "results"
  let n ← pyLen rv
  if n = 0 then return false
  let e0 ← pyIndexZero rv
  pyContains e0 "text"

/-- Evaluation of `j["results"][0]["text"].strip()` minus the final
strip: the subscripts follow Python semantics, and a non-string `text`
value raises `AttributeError` at the `.strip()` call. -/
def extractText (j : JVal) : Except PyErr String :=
  match pyIndexS j "results" with
  | .error e => .error e.toPyErr
  | .ok rv =>
    match pyIndexZero rv with
    | .error e => .error e.toPyErr
    | .ok e0 =>
      match pyIndexS e0 "text" with
      | .error e => .error e.toPyErr
      | .ok tv =>
        match tv with
        | .jstr s => .ok s
        | _ => .error .attributeError

/-- Handling in `_call` of a decoded JSON body: shape check, text
extraction and post-processing, or the `ValueError` carrying the raw
payload (`Unexpected response format from Kobold API`). -/
def callParseBody (j : JVal) (stop : Option (List String)) : Except PyErr String :=
  match shapeCheck j with
  | .error e => .error e.toPyErr
  | .ok false => .error (.valueError j)
  | .ok true =>
    match extractText j with
    | .error e => .error e
    | .ok raw => .ok (postProcess raw stop)

/-- Handling in `_call` of the HTTP exchange: a missing response is a
connection failure, `raise_for_status`, `response.json()`, then body
parsing. -/
def callResponse (resp : Option HttpResp) (stop : Option (List String)) :
    Except PyErr String :=
  match resp with
  | none => .error .connectionError
  | some r =>
    if httpFail r.status then .error (.httpError r.status)
    else
      match r.body with
      | none => .error .jsonDecodeError
      | some j => callParseBody j stop

/-- Method `_call`: build the request body with
`_get_parameters`, POST it (the server's reaction is the `resp`
parameter), and parse the response.  Returns the body that was sent
together with the outcome. -/
def KoboldApiLLM._call (self : KoboldApiLLM) (prompt : String)
    (stop : Option (List String)) (resp : Option HttpResp) :
    List (String × JVal) × Except PyErr String :=
  (self._get_parameters prompt stop, callResponse resp stop)

/-! ## Response parsing (`_acall`) — the duplicated async code path -/

/-- Copy in `_acall` of the body-parsing logic (the source duplicates the
shape check, extraction and stop loop verbatim inside `_acall`). -/
def acallParseBody (j : JVal) (stop : Option (List String)) : Except PyErr String :=
  match shapeCheck j with
  | .error e => .error e.toPyErr
  | .ok false => .error (.valueError j)
  | .ok true =>
    match extractText j with
    | .error e => .error e
    | .ok raw => .ok (postProcess raw stop)

/-- Copy in `_acall` of the HTTP-exchange handling (aiohttp instead of
requests, with the same status/JSON/parse steps). -/
def acallResponse (resp : Option HttpResp) (stop : Option (List String)) :
    Except PyErr String :=
  match resp with
  | none => .error .connectionError
  | some r =>
    if httpFail r.status then .error (.httpError r.status)
    else
      match r.body with
      | none => .error .jsonDecodeError
      | some j => acallParseBody j stop

/-- Result of one `_acall`: the updated client state (its `genkeys`
registry), the request body that was POSTed, and the call's outcome. -/
structure AcallOut where
  self : KoboldApiLLM
  sentBody : List (String × JVal)
  result : Except PyErr String

/-- Method `_acall`: in koboldcpp (extended) mode, draw a genkey
(the sample from `random.choices` is the `sampledKey` parameter),
record it in `genkeys[channel_id]`, and add it to the request body;
then POST and parse as in `_call`. -/
def KoboldApiLLM._acall (self : KoboldApiLLM) (prompt : String)
    (stop : Option (List String)) (channel_id : Option String)
    (sampledKey : String) (resp : Option HttpResp) : AcallOut :=
  if self.is_koboldcpp then
    let genkey := sampledKey
    let self1 := { self with genkeys := dictSet self.genkeys channel_id genkey }
    let data := self._get_parameters prompt stop
    let data := data ++ [("genkey", JVal.jstr genkey)]
    ⟨self1, data, acallResponse resp stop⟩
  else
    ⟨self, self._get_parameters prompt stop, acallResponse resp stop⟩

/-! ## `check_version` -/

/-- The error raised when both version probes fail
(`The endpoint is not running KoboldAI or koboldcpp.`). -/
inductive ProbeErr where
  | endpointUnavailable : ProbeErr

/-- Method `check_version`, threading the `is_koboldcpp` flag
explicitly.  The two probe outcomes are the `ext` and `basic`
parameters (`none` = connection failure).  Note the source sets
`self.is_koboldcpp = True` as soon as the extended endpoint has
returned a successful status with a JSON body — before the `version`
field is read and converted with `float()`; a failure in either of
those later steps is caught by the bare `except:` and falls through to
the basic probe with the flag already set. -/
def check_version (st : Bool) (ext basic : Option HttpResp) :
    Bool × Except ProbeErr ℚ :=
  let tryExt : Bool × Option ℚ :=
    match ext with
    | none => (st, none)
    | some r =>
      if httpFail r.status then (st, none)
      else
        match r.body with
        | none => (st, none)
        | some j =>
          match pyIndexS j "version" with
          | .error _ => (true, none)
          | .ok v =>
            match pyFloat v with
            | none => (true, none)
            | some q => (true, some q)
  match tryExt with
  | (st1, some q) => (st1, .ok q)
  | (st1, none) =>
    match basic with
    | none => (st1, .error .endpointUnavailable)
    | some r =>
      if httpFail r.status then (st1, .error .endpointUnavailable)
      else
        match r.body with
        | none => (st1, .error .endpointUnavailable)
        | some _ => (false, .ok 0)

/-! ## `_stop` -/

/-- Python `v == True` (the abort-response `success` check): true for
the boolean `true` and for the number 1. -/
def jvalEqTrue : JVal → Bool
  | .jbool b => b
  | .jnum q => q == 1
  | _ => false

/-- What `_stop` prints before returning. -/
inductive StopOutcome where
  | successPrint : Option String → String → StopOutcome
  | errorPrint : StopOutcome
  | caughtPrint : PyErr → StopOutcome

/-- The `try:` block of `_stop`.  The local variables `json` and
`genkey` are only bound when the channel has a registry entry; using
them unbound raises `UnboundLocalError` (inside the `try`). -/
def stopTry (jsonVar : Option JVal) (genkeyVar : Option String)
    (channel_id : Option String) (resp : Option HttpResp) :
    Except PyErr StopOutcome :=
  match jsonVar with
  | none => .error .unboundLocalError
  | some _ =>
    match resp with
    | none => .error .connectionError
    | some r =>
      if r.status = 200 then
        match r.body with
        | none => .error .jsonDecodeError
        | some j =>
          match pyIndexS j "success" with
          | .error e => .error e.toPyErr
          | .ok v =>
            if jvalEqTrue v then
              match genkeyVar with
              | some g => .ok (.successPrint channel_id g)
              | none => .error .unboundLocalError
            else .ok .errorPrint
      else .ok .errorPrint

/-- Method `_stop`: look the channel up in `genkeys` (binding the
locals only on a hit), run the `try:` block, and catch every exception
with `except Exception`, printing instead of raising. -/
def KoboldApiLLM._stop (self : KoboldApiLLM) (channel_id : Option String)
    (resp : Option HttpResp) : Except PyErr StopOutcome :=
  let genkeyVar := dictFind self.genkeys channel_id
  let jsonVar := genkeyVar.map (fun g => JVal.jobj [("genkey", JVal.jstr g)])
  match stopTry jsonVar genkeyVar channel_id resp with
  | .ok o => .ok o
  | .error e => .ok (.caughtPrint e)

/-! ## Spec-side definitions (the spec's wording, for comparison) -/

/-- Stop-sequence stripping as the spec words it: check each sequence in
order against the text's suffix; on the FIRST match remove that suffix,
trim trailing whitespace, and strip no further sequence. -/
def stripFirstOnly (seqs : List String) (t : String) : String :=
  match seqs.find? (fun s => pyEndsWith t s) with
  | some s => pyRstrip (pyCutSuffix t s)
  | none => t

/-- Stop-sequence stripping as the code actually behaves, recursively:
each listed sequence is examined once, in order, against the current
text; every sequence that matches at its turn is stripped (so several
sequences may each be stripped in one pass). -/
def stripEachInOrder : List String → String → String
  | [], t => t
  | s :: rest, t =>
    stripEachInOrder rest (if pyEndsWith t s then pyRstrip (pyCutSuffix t s) else t)

/-- The `results[0].text` shape in the spec's sense: a JSON object whose
`results` key holds a nonempty array whose first element is an object
with a `text` key. -/
def hasResultsTextShape (j : JVal) : Bool :=
  match j with
  | .jobj fields =>
    match lookupJ fields "results" with
    | some (.jarr (e0 :: _)) =>
      match e0 with
      | .jobj efields => (lookupJ efields "text").isSome
      | _ => false
    | _ => false
  | _ => false

/-- The extended probe "succeeds with a valid response": HTTP success,
JSON body, and a `version` field convertible to a number. -/
def extProbeValid (ext : Option HttpResp) : Bool :=
  match ext with
  | none => false
  | some r =>
    if httpFail r.status then false
    else
      match r.body with
      | none => false
      | some j =>
        match pyIndexS j "version" with
        | .error _ => false
        | .ok v => (pyFloat v).isSome

/-- The numeric version the extended probe reports, when it succeeds
with a valid response. -/
def extVersion (ext : Option HttpResp) : Option ℚ :=
  match ext with
  | none => none
  | some r =>
    if httpFail r.status then none
    else
      match r.body with
      | none => none
      | some j =>
        match pyIndexS j "version" with
        | .error _ => none
        | .ok v => pyFloat v

/-- The point at which `check_version` flips `is_koboldcpp` to `True`:
the extended endpoint returned an HTTP success with a JSON body. -/
def extJsonOk (ext : Option HttpResp) : Bool :=
  match ext with
  | none => false
  | some r =>
    if httpFail r.status then false
    else
      match r.body with
      | none => false
      | some _ => true

/-- The basic probe succeeds: HTTP success with a JSON body. -/
def basicOk (basic : Option HttpResp) : Bool :=
  match basic with
  | none => false
  | some r =>
    if httpFail r.status then false
    else
      match r.body with
      | none => false
      | some _ => true

/-! ## Helper lemmas -/

theorem stripStopSeqs_append (a b : List String) (t : String) :
    stripStopSeqs (a ++ b) t = stripStopSeqs b (stripStopSeqs a t) := by
  simp [stripStopSeqs, List.foldl_append]

theorem stripStopSeqs_no_match (seqs : List String) (t : String)
    (h : ∀ s ∈ seqs, pyEndsWith t s = false) : stripStopSeqs seqs t = t := by
  induction seqs with
  | nil => rfl
  | cons s rest ih =>
    have hs : pyEndsWith t s = false := h s (List.mem_cons_self s rest)
    simp only [stripStopSeqs, List.foldl_cons, hs, Bool.false_eq_true, if_false]
    exact ih (fun x hx => h x (List.mem_cons_of_mem s hx))

theorem stripStopSeqs_eq_each (seqs : List String) (t : String) :
    stripStopSeqs seqs t = stripEachInOrder seqs t := by
  induction seqs generalizing t with
  | nil => rfl
  | cons s rest ih =>
    simp only [stripStopSeqs, List.foldl_cons, stripEachInOrder]
    exact ih _

theorem dictFind_dictSet_self (m : List (Option String × String))
    (k : Option String) (v : String) : dictFind (dictSet m k v) k = some v := by
  unfold dictSet
  by_cases h : m.any (fun p => p.1 == k)
  · simp only [h, if_true]
    induction m with
    | nil => simp at h
    | cons p rest ih =>
      by_cases hp : p.1 == k
      · simp [dictFind, List.find?, hp]
      · simp only [List.any_cons, hp, Bool.false_or] at h
        simp only [List.map_cons, hp, if_false]
        simpa [dictFind, List.find?, hp] using ih h
  · simp only [h, if_false]
    induction m with
    | nil => simp [dictFind, List.find?]
    | cons p rest ih =>
      simp only [List.any_cons, Bool.or_eq_true, not_or] at h
      have hp : (p.1 == k) = false := by
        cases hpk : p.1 == k
        · rfl
        · exact absurd hpk h.1
      simp only [List.cons_append]
      simp only [dictFind, List.find?, hp]
      have := ih (by simpa using h.2)
      simpa [dictFind] using this

theorem mapFst_overwrite (m : List (Option String × String))
    (k : Option String) (v : String) :
    (m.map (fun p => if p.1 == k then (k, v) else p)).map (fun p => p.1)
      = m.map (fun p => p.1) := by
  induction m with
  | nil => rfl
  | cons p rest ih =>
    simp only [List.map_cons, ih]
    by_cases hp : (p.1 == k) = true
    · have hpk : p.1 = k := by simpa using hp
      rw [if_pos hp, hpk]
    · rw [if_neg hp]

theorem countP_eq_one_of_nodup_mem (l : List (Option String)) (k : Option String)
    (hnd : l.Nodup) (hk : k ∈ l) : l.countP (fun x => x == k) = 1 := by
  induction l with
  | nil => cases hk
  | cons a rest ih =>
    have hnd2 := List.nodup_cons.mp hnd
    rcases List.mem_cons.mp hk with h | h
    · subst h
      have h0 : rest.countP (fun x => x == k) = 0 := by
        apply List.countP_eq_zero.mpr
        intro x hx
        simp only [beq_iff_eq]
        intro he
        exact hnd2.1 (he ▸ hx)
      simp [List.countP_cons, h0]
    · have hak : ¬ ((a == k) = true) := by
        simp only [beq_iff_eq]
        intro he
        exact hnd2.1 (he ▸ h)
      simp only [List.countP_cons, hak, if_false]
      exact ih hnd2.2 h

theorem countKey_eq_countP (m : List (Option String × String)) (k : Option String) :
    countKey m k = (m.map (fun p => p.1)).countP (fun x => x == k) := by
  rw [countKey, ← List.countP_eq_length_filter, List.countP_map]
  rfl

theorem countKey_dictSet_self (m : List (Option String × String))
    (k : Option String) (v : String) (hnd : nodupKeys m) :
    countKey (dictSet m k v) k = 1 := by
  unfold dictSet
  by_cases h : m.any (fun p => p.1 == k)
  · simp only [h, if_true, countKey_eq_countP, mapFst_overwrite]
    have hk : k ∈ m.map (fun p => p.1) := by
      obtain ⟨p, hp, hpk⟩ := List.any_eq_true.mp h
      exact List.mem_map.mpr ⟨p, hp, by simpa using hpk⟩
    exact countP_eq_one_of_nodup_mem _ _ hnd hk
  · simp only [h, if_false, countKey_eq_countP, List.map_append, List.countP_append]
    have hk : k ∉ m.map (fun p => p.1) := by
      intro hk
      obtain ⟨p, hp, hpk⟩ := List.mem_map.mp hk
      exact h (List.any_eq_true.mpr ⟨p, hp, by simp [hpk]⟩)
    have h0 : (m.map (fun p => p.1)).countP (fun x => x == k) = 0 := by
      apply List.countP_eq_zero.mpr
      intro x hx
      simp only [beq_iff_eq]
      intro he
      exact hk (he ▸ hx)
    simp [h0, List.countP_cons]

theorem nodupKeys_dictSet (m : List (Option String × String))
    (k : Option String) (v : String) (hnd : nodupKeys m) :
    nodupKeys (dictSet m k v) := by
  unfold dictSet
  by_cases h : m.any (fun p => p.1 == k)
  · simp only [h, if_true]
    unfold nodupKeys
    rw [mapFst_overwrite]
    exact hnd
  · simp only [h, Bool.false_eq_true, if_false]
    have hk : k ∉ m.map (fun p => p.1) := by
      intro hk
      obtain ⟨p, hp, hpk⟩ := List.mem_map.mp hk
      exact h (List.any_eq_true.mpr ⟨p, hp, by simp [hpk]⟩)
    unfold nodupKeys
    rw [List.map_append, List.nodup_append]
    refine ⟨hnd, by simp, ?_⟩
    intro a ha hb
    simp only [List.map_cons, List.map_nil, List.mem_singleton] at hb
    subst hb
    exact hk ha

theorem beginsWith_iff (p l : List Char) : beginsWith p l = true ↔ p <+: l := by
  induction p generalizing l with
  | nil => simp [beginsWith]
  | cons a ps ih =>
    cases l with
    | nil => simp [beginsWith]
    | cons b bs =>
      simp [beginsWith, ih, List.cons_prefix_cons, decide_eq_true_eq, Bool.and_eq_true]

theorem pyEndsWith_iff (t s : String) : pyEndsWith t s = true ↔ s.data <:+ t.data := by
  rw [pyEndsWith, endsWithL, beginsWith_iff, List.reverse_prefix]

theorem pyEndsWith_decomp (t s : String) (h : pyEndsWith t s = true) :
    t.data = t.data.take (t.data.length - s.data.length) ++ s.data := by
  obtain ⟨u, hu⟩ := (pyEndsWith_iff t s).mp h
  conv_lhs => rw [← hu]
  have hl : t.data.length - s.data.length = u.length := by
    rw [← hu]
    simp
  rw [hl, ← hu, List.take_left]

theorem pyEndsWith_take_length (c s : String) (h : pyEndsWith c s = true) :
    (c.data.take (c.data.length - s.data.length)).length + s.data.length
      = c.data.length := by
  have hd := pyEndsWith_decomp c s h
  have hl := congrArg List.length hd
  rw [List.length_append] at hl
  omega

theorem clean_url_fixed_iff (c : String) :
    clean_url c = c ↔
      (pyEndsWith c "/api" = false ∧ pyEndsWith c "/" = false) := by
  constructor
  · intro h
    by_cases h1 : pyEndsWith c "/api" = true
    · exfalso
      have hl := pyEndsWith_take_length c "/api" h1
      have h4 : ("/api" : String).data.length = 4 := rfl
      rw [h4] at hl
      have hlen : (clean_url c).data.length = c.data.length := by rw [h]
      rw [clean_url, h1, if_pos rfl] at hlen
      have hlen2 : (c.data.take (c.data.length - 4)).length = c.data.length := hlen
      omega
    · by_cases h2 : pyEndsWith c "/" = true
      · exfalso
        have hl := pyEndsWith_take_length c "/" h2
        have h4 : ("/" : String).data.length = 1 := rfl
        rw [h4] at hl
        have hlen : (clean_url c).data.length = c.data.length := by rw [h]
        rw [clean_url, if_neg (by simp [h1]), h2, if_pos rfl] at hlen
        have hlen2 : (c.data.take (c.data.length - 1)).length = c.data.length := hlen
        omega
      · exact ⟨by simp [h1], by simp [h2]⟩
  · intro hb
    rw [clean_url, if_neg (by simp [hb.1]), if_neg (by simp [hb.2])]

theorem subErr_toPyErr_cases (e : SubErr) :
    e.toPyErr = PyErr.typeError ∨ e.toPyErr = PyErr.keyError ∨ e.toPyErr = PyErr.indexError := by
  cases e <;> simp [SubErr.toPyErr]

theorem extractText_errors (j : JVal) (e : PyErr) (h : extractText j = .error e) :
    e = PyErr.typeError ∨ e = PyErr.keyError ∨ e = PyErr.indexError ∨ e = PyErr.attributeError := by
  unfold extractText at h
  split at h
  · rename_i e1 heq
    cases e1 <;> simp_all [SubErr.toPyErr]
  · split at h
    · rename_i e2 heq
      cases e2 <;> simp_all [SubErr.toPyErr]
    · split at h
      · rename_i e3 heq
        cases e3 <;> simp_all [SubErr.toPyErr]
      · split at h
        · simp_all
        · simp_all

theorem callParseBody_errors (j : JVal) (stop : Option (List String)) (e : PyErr)
    (h : callParseBody j stop = .error e) :
    e = PyErr.typeError ∨ e = PyErr.keyError ∨ e = PyErr.indexError ∨
    e = PyErr.attributeError ∨ e = PyErr.valueError j := by
  unfold callParseBody at h
  split at h
  · rename_i e1 heq
    cases e1 <;> simp_all [SubErr.toPyErr]
  · simp_all
  · split at h
    · rename_i e2 heq
      have := extractText_errors j e2 heq
      simp only [Except.error.injEq] at h
      subst h
      tauto
    · simp_all

theorem acall_state_ext (self : KoboldApiLLM) (prompt : String)
    (stop : Option (List String)) (ch : Option String) (k : String)
    (resp : Option HttpResp) (h : self.is_koboldcpp = true) :
    (self._acall prompt stop ch k resp).self.genkeys = dictSet self.genkeys ch k ∧
    (self._acall prompt stop ch k resp).self.is_koboldcpp = true := by
  simp [KoboldApiLLM._acall, h]

/-! ## Shared concrete clients for witnesses and counterexamples -/

/-- A client in basic (KoboldAI) mode, with the class defaults. -/
def basicClient : KoboldApiLLM := { endpoint := "http://localhost:5000" }

/-- A client in extended (koboldcpp) mode. -/
def extClient : KoboldApiLLM := { endpoint := "http://localhost:5000", is_koboldcpp := true }

/-! ## Claims -/

/-- Claim C1, counterexample.  The claim says at most one stop sequence
is ever removed: after the first match no further sequence is stripped
even if it would match the new suffix.  The code's loop has no `break`:
on text `abc` with stop sequences `[c, b]`, the first-match-only
behaviour the claim describes yields `ab`, but the code strips `c` and
then also strips `b` from the new suffix, returning `a`. -/
theorem claim_C1_counterexample :
    stripStopSeqs ["c", "b"] "abc" = "a" ∧
    stripFirstOnly ["c", "b"] "abc" = "ab" ∧
    ("a" : String) ≠ "ab" :=
  ⟨rfl, rfl, by decide⟩

/-- Claim C1 (amended): the supplied stop sequences are checked in
order against the current text's suffix, and EVERY sequence that
matches at its turn is removed (followed by trailing-whitespace
trimming) — several sequences may be stripped in one call, at most one
removal per listed sequence; if no sequence matches, the text is
unchanged. -/
theorem claim_C1 (seqs : List String) (t : String) :
    stripStopSeqs seqs t = stripEachInOrder seqs t ∧
    ((∀ s ∈ seqs, pyEndsWith t s = false) → stripStopSeqs seqs t = t) :=
  ⟨stripStopSeqs_eq_each seqs t, stripStopSeqs_no_match seqs t⟩

/-- Claim C1, witness for the amended theorem at a concrete input. -/
theorem claim_C1_witness :
    stripStopSeqs ["ab"] "xy" = stripEachInOrder ["ab"] "xy" ∧
    stripStopSeqs ["ab"] "xy" = "xy" :=
  ⟨(claim_C1 ["ab"] "xy").1, (claim_C1 ["ab"] "xy").2 (by decide)⟩

/-- Claim C2: cancelling a channel with no `genkeys` entry never raises
to the caller.  The `json` local is unbound, so evaluating the abort
POST raises `UnboundLocalError` inside the `try:` block, which the
`except Exception` handler catches and reports; `_stop` completes
normally (no exception propagates), having sent nothing. -/
theorem claim_C2 (self : KoboldApiLLM) (channel_id : Option String)
    (resp : Option HttpResp) (h : dictFind self.genkeys channel_id = none) :
    self._stop channel_id resp
      = Except.ok (StopOutcome.caughtPrint PyErr.unboundLocalError) := by
  unfold KoboldApiLLM._stop
  rw [h]
  rfl

/-- Claim C2, witness: the default client has an empty registry, and
cancelling channel `chan` reports the caught failure. -/
theorem claim_C2_witness :
    KoboldApiLLM._stop { endpoint := "http://localhost:5000" } (some "chan") none
      = Except.ok (StopOutcome.caughtPrint PyErr.unboundLocalError) :=
  claim_C2 { endpoint := "http://localhost:5000" } (some "chan") none rfl

/-- Claim C3, counterexample.  The claim says that when the text ends
with exactly one of the sequences, the returned text is the text with
that suffix removed and trailing whitespace trimmed.  Text `xab` with
stop sequences `[b, a]` ends with exactly one of them (`b`, not `a`),
so the claim predicts `xa`; but after stripping `b` the loop goes on to
strip `a` as well, and the call returns `x`. -/
theorem claim_C3_counterexample :
    pyEndsWith "xab" "b" = true ∧
    pyEndsWith "xab" "a" = false ∧
    pyRstrip (pyCutSuffix "xab" "b") = "xa" ∧
    callResponse
      (some ⟨200, some (.jobj [("results", .jarr [.jobj [("text", .jstr "xab")]])])⟩)
      (some ["b", "a"]) = .ok "x" ∧
    ("x" : String) ≠ "xa" :=
  ⟨rfl, rfl, rfl, rfl, by decide⟩

/-- Claim C3 (amended): after the initial strip, if the text ends with
exactly one of the sequences AND, after removing that suffix and
trimming, no LATER sequence in the list matches the new suffix, the
result is the text with the suffix removed and trailing whitespace
trimmed; if the text ends with none of the sequences it is returned
unchanged; and in particular the spec's worked example — response
`results[0].text = "Hello world.   "` with stop sequences `[world.]` —
returns `Hello`. -/
theorem claim_C3 (pre post : List String) (s t : String) :
    ((∀ x ∈ pre, pyEndsWith t x = false) → pyEndsWith t s = true →
      (∀ x ∈ post, pyEndsWith (pyRstrip (pyCutSuffix t s)) x = false) →
      stripStopSeqs (pre ++ s :: post) t = pyRstrip (pyCutSuffix t s)) ∧
    ((∀ x ∈ pre ++ s :: post, pyEndsWith t x = false) →
      stripStopSeqs (pre ++ s :: post) t = t) ∧
    callResponse
      (some ⟨200, some (.jobj [("results", .jarr [.jobj [("text", .jstr "Hello world.   ")]])])⟩)
      (some ["world."]) = .ok "Hello" := by
  refine ⟨?_, ?_, rfl⟩
  · intro h1 h2 h3
    rw [stripStopSeqs_append, stripStopSeqs_no_match pre t h1]
    simp only [stripStopSeqs, List.foldl_cons, h2, if_true]
    exact stripStopSeqs_no_match post _ h3
  · exact stripStopSeqs_no_match _ t

/-- Claim C3, witness for the amended theorem at concrete inputs:
`a b` with stop list `[b]` strips to `a`; `a b` with stop list `[q]`
is unchanged. -/
theorem claim_C3_witness :
    stripStopSeqs ["b"] "a b" = pyRstrip (pyCutSuffix "a b" "b") ∧
    stripStopSeqs ["q"] "a b" = "a b" :=
  ⟨(claim_C3 [] [] "b" "a b").1 (by decide) (by decide) (by decide),
   (claim_C3 [] [] "q" "a b").2.1 (by decide)⟩

/-- Claim C4: for every prompt and stop list, the request body's
`prompt` field is exactly the input prompt, all sixteen fields
(`prompt` plus the fifteen sampling/config fields) are present, and a
`stop_sequence` field is present precisely when the stop list is given
and non-empty (Python truthiness of the `stop` argument). -/
theorem claim_C4 (self : KoboldApiLLM) (prompt : String) (stop : Option (List String)) :
    lookupJ (self._get_parameters prompt stop) "prompt" = some (.jstr prompt) ∧
    (["prompt", "use_story", "use_authors_note", "use_world_info", "use_memory",
      "max_context_length", "max_length", "rep_pen", "rep_pen_range", "rep_pen_slope",
      "temperature", "tfs", "top_a", "top_p", "top_k", "typical"].all
        (fun k => (lookupJ (self._get_parameters prompt stop) k).isSome)) = true ∧
    (lookupJ (self._get_parameters prompt stop) "stop_sequence").isSome = stopTruthy stop := by
  rcases stop with _ | (_ | ⟨a, l⟩)
  · exact ⟨rfl, rfl, rfl⟩
  · exact ⟨rfl, rfl, rfl⟩
  · exact ⟨rfl, rfl, rfl⟩

theorem check_version_eq (st : Bool) (ext basic : Option HttpResp) :
    check_version st ext basic =
      (match extVersion ext with
       | some q => (true, .ok q)
       | none =>
         if basicOk basic then (false, .ok 0)
         else ((if extJsonOk ext then true else st), .error .endpointUnavailable)) := by
  rcases ext with _ | ⟨s, b⟩
  · rcases basic with _ | ⟨s2, b2⟩
    · rfl
    · by_cases h2 : httpFail s2
      · simp [check_version, extVersion, extJsonOk, basicOk, h2]
      · rcases b2 with _ | j2 <;> simp [check_version, extVersion, extJsonOk, basicOk, h2]
  · by_cases h : httpFail s
    · rcases basic with _ | ⟨s2, b2⟩
      · simp [check_version, extVersion, extJsonOk, basicOk, h]
      · by_cases h2 : httpFail s2
        · simp [check_version, extVersion, extJsonOk, basicOk, h, h2]
        · rcases b2 with _ | j2 <;>
            simp [check_version, extVersion, extJsonOk, basicOk, h, h2]
    · rcases b with _ | j
      · rcases basic with _ | ⟨s2, b2⟩
        · simp [check_version, extVersion, extJsonOk, basicOk, h]
        · by_cases h2 : httpFail s2
          · simp [check_version, extVersion, extJsonOk, basicOk, h, h2]
          · rcases b2 with _ | j2 <;>
              simp [check_version, extVersion, extJsonOk, basicOk, h, h2]
      · rcases hv : pyIndexS j "version" with e | v
        · rcases basic with _ | ⟨s2, b2⟩
          · simp [check_version, extVersion, extJsonOk, basicOk, h, hv]
          · by_cases h2 : httpFail s2
            · simp [check_version, extVersion, extJsonOk, basicOk, h, hv, h2]
            · rcases b2 with _ | j2 <;>
                simp [check_version, extVersion, extJsonOk, basicOk, h, hv, h2]
        · rcases hq : pyFloat v with _ | q
          · rcases basic with _ | ⟨s2, b2⟩
            · simp [check_version, extVersion, extJsonOk, basicOk, h, hv, hq]
            · by_cases h2 : httpFail s2
              · simp [check_version, extVersion, extJsonOk, basicOk, h, hv, hq, h2]
              · rcases b2 with _ | j2 <;>
                  simp [check_version, extVersion, extJsonOk, basicOk, h, hv, hq, h2]
          · simp [check_version, extVersion, extJsonOk, h, hv, hq]

/-- Claim C5, counterexample.  The claim says DialectState is marked
extended only when the extended probe succeeded with a valid response.
But `check_version` sets `is_koboldcpp = True` before converting the
`version` field: when the extended endpoint answers 200 with JSON body
`version = "x"` (not a number), `float()` then raises, the bare
`except:` falls through to the basic probe, and when that also fails
the probe raises the unavailable error with the flag left `True` —
the state was marked extended although the extended probe never
succeeded with a valid response. -/
theorem claim_C5_counterexample :
    extProbeValid (some ⟨200, some (.jobj [("version", .jstr "x")])⟩) = false ∧
    (check_version false (some ⟨200, some (.jobj [("version", .jstr "x")])⟩) none).1 = true ∧
    (check_version false (some ⟨200, some (.jobj [("version", .jstr "x")])⟩) none).2
      = .error .endpointUnavailable :=
  ⟨rfl, rfl, rfl⟩

/-- Claim C5 (amended): if the extended probe succeeds with a valid
response (HTTP success, JSON body, numeric `version`), the dialect flag
becomes extended and the probe returns that number; otherwise, if the
basic probe succeeds, the flag becomes basic and the probe returns 0;
if both fail, the probe fails with the endpoint-unavailable error — but
the flag is flipped to extended as soon as the extended endpoint
returns an HTTP success with a JSON body, BEFORE the `version` field is
validated, so on a double failure the flag ends up extended whenever
the extended endpoint had returned decodable JSON (and otherwise keeps
its prior value). -/
theorem claim_C5 (st : Bool) (ext basic : Option HttpResp) :
    (∀ q : ℚ, extVersion ext = some q → check_version st ext basic = (true, .ok q)) ∧
    (extVersion ext = none → basicOk basic = true →
      check_version st ext basic = (false, .ok 0)) ∧
    (extVersion ext = none → basicOk basic = false →
      check_version st ext basic
        = ((if extJsonOk ext then true else st), .error .endpointUnavailable)) := by
  refine ⟨?_, ?_, ?_⟩
  · intro q hq
    rw [check_version_eq, hq]
  · intro hq hb
    rw [check_version_eq, hq]
    simp [hb]
  · intro hq hb
    rw [check_version_eq, hq]
    simp [hb]

/-- Claim C5, witness: a valid extended response with version string
`3` marks the flag extended and the probe returns 3; with no extended
endpoint and a successful basic probe the flag becomes basic and the
probe returns 0; with neither endpoint the probe fails unavailable. -/
theorem claim_C5_witness :
    check_version false (some ⟨200, some (.jobj [("version", .jstr "3")])⟩) none
      = (true, .ok (3 : ℚ)) ∧
    check_version false none (some ⟨200, some (.jobj [])⟩) = (false, .ok 0) ∧
    check_version true none none = (true, .error .endpointUnavailable) :=
  ⟨(claim_C5 false (some ⟨200, some (.jobj [("version", .jstr "3")])⟩) none).1
      (3 : ℚ) (by decide),
   (claim_C5 false none (some ⟨200, some (.jobj [])⟩)).2.1 rfl rfl,
   (claim_C5 true none none).2.2 rfl rfl⟩

/-- Claim C6, counterexample.  The claim says a generation call fails
with the MalformedResponse error (the `ValueError` carrying the raw
payload) EXACTLY when the response JSON lacks the `results[0].text`
shape.  But for the JSON body `5` — which certainly lacks the shape —
the condition `"results" in json_response` itself raises `TypeError`
(an int is not iterable), so the call fails with `TypeError`, not with
the payload-carrying `ValueError`. -/
theorem claim_C6_counterexample :
    hasResultsTextShape (JVal.jnum 5) = false ∧
    callResponse (some ⟨200, some (.jnum 5)⟩) none = .error PyErr.typeError ∧
    PyErr.typeError ≠ PyErr.valueError (.jnum 5) :=
  ⟨rfl, rfl, by simp⟩

/-- Claim C6 (amended): on a non-success status (4xx/5xx) the call
fails with the transport error carrying that status, and a transport
failure arises only then; on a success status with a JSON body, the
call fails with the MalformedResponse `ValueError` carrying the raw
payload exactly when the code's shape test evaluates (without raising)
to false — bodies on which the shape test itself raises (e.g. a bare
number, or `results` holding a number) propagate that `TypeError` /
`KeyError` / `IndexError` instead.  In every failure case the error
propagates and no text is returned. -/
theorem claim_C6 (r : HttpResp) (stop : Option (List String)) (j : JVal)
    (hs : r.status < 600) :
    (400 ≤ r.status → callResponse (some r) stop = .error (.httpError r.status)) ∧
    ((∃ s', callResponse (some r) stop = .error (.httpError s')) ↔ 400 ≤ r.status) ∧
    (r.body = some j → r.status < 400 →
      (callResponse (some r) stop = .error (.valueError j) ↔ shapeCheck j = .ok false)) ∧
    (r.body = some j → r.status < 400 → ∀ e : SubErr, shapeCheck j = .error e →
      callResponse (some r) stop = .error e.toPyErr) := by
  have hchar : ∀ h4 : 400 ≤ r.status, httpFail r.status = true := by
    intro h4
    simp only [httpFail, Bool.and_eq_true, decide_eq_true_eq]
    omega
  have hchar' : ∀ h4 : ¬ 400 ≤ r.status, httpFail r.status = false := by
    intro h4
    simp only [httpFail, Bool.and_eq_false_iff, decide_eq_false_iff_not]
    omega
  refine ⟨?_, ⟨?_, ?_⟩, ?_, ?_⟩
  · intro h4
    simp [callResponse, hchar h4]
  · rintro ⟨s', hs'⟩
    by_contra h4
    rw [callResponse] at hs'
    rw [hchar' h4] at hs'
    simp only [Bool.false_eq_true, if_false] at hs'
    rcases hb : r.body with _ | j'
    · rw [hb] at hs'
      simp at hs'
    · rw [hb] at hs'
      simp only [] at hs'
      rcases callParseBody_errors j' stop _ hs' with h | h | h | h | h <;> simp at h
  · intro h4
    exact ⟨r.status, by simp [callResponse, hchar h4]⟩
  · intro hb h4
    have h4' : ¬ 400 ≤ r.status := by omega
    rw [callResponse, hchar' h4']
    simp only [Bool.false_eq_true, if_false, hb]
    constructor
    · intro hl
      unfold callParseBody at hl
      split at hl
      · rename_i e1 heq
        cases e1 <;> simp_all [SubErr.toPyErr]
      · rename_i heq
        exact heq
      · rename_i heq
        split at hl
        · rename_i e2 heq2
          simp only [Except.error.injEq] at hl
          rcases extractText_errors j e2 heq2 with h | h | h | h <;> simp_all
        · simp_all
    · intro hr
      unfold callParseBody
      rw [hr]
  · intro hb h4 e he
    have h4' : ¬ 400 ≤ r.status := by omega
    rw [callResponse, hchar' h4']
    simp only [Bool.false_eq_true, if_false, hb]
    unfold callParseBody
    rw [he]

/-- Claim C6, witness: a 404 with a non-JSON body fails with the
transport error for status 404, and a 200 whose JSON body is an object
without a `results` key fails with the MalformedResponse `ValueError`
carrying that payload. -/
theorem claim_C6_witness :
    callResponse (some ⟨404, none⟩) none = .error (.httpError 404) ∧
    callResponse (some ⟨200, some (.jobj [])⟩) none = .error (.valueError (.jobj [])) :=
  ⟨(claim_C6 ⟨404, none⟩ none JVal.jnull (by decide)).1 (by decide),
   ((claim_C6 ⟨200, some (.jobj [])⟩ none (.jobj []) (by decide)).2.2.1 rfl
      (by decide)).mpr rfl⟩

/-- Claim C7, counterexample.  The claim says endpoint normalization is
idempotent for every URL.  One application strips only one trailing
character/suffix, so on `http://h:5000//` one `clean_url` yields
`http://h:5000/` and a second application strips again — the function
is not idempotent there. -/
theorem claim_C7_counterexample :
    clean_url "http://h:5000//" = "http://h:5000/" ∧
    clean_url (clean_url "http://h:5000//") = "http://h:5000" ∧
    ("http://h:5000" : String) ≠ "http://h:5000/" :=
  ⟨rfl, rfl, by decide⟩

/-- Claim C7 (amended): the three spec examples normalize to
`http://h:5000`; every application of `clean_url` strips at most one
trailing `/api` suffix or one trailing slash (the input is the output,
or the output plus `/api`, or the output plus `/`); and normalization
is idempotent precisely on URLs whose normalized form does not itself
end in `/api` or `/`. -/
theorem claim_C7 :
    (clean_url "http://h:5000/api" = "http://h:5000" ∧
     clean_url "http://h:5000/" = "http://h:5000" ∧
     clean_url "http://h:5000" = "http://h:5000") ∧
    (∀ url : String,
      clean_url url = url ∨ url = clean_url url ++ "/api" ∨ url = clean_url url ++ "/") ∧
    (∀ url : String,
      clean_url (clean_url url) = clean_url url ↔
        (pyEndsWith (clean_url url) "/api" = false ∧
         pyEndsWith (clean_url url) "/" = false)) := by
  refine ⟨⟨rfl, rfl, rfl⟩, ?_, ?_⟩
  · intro url
    by_cases h1 : pyEndsWith url "/api" = true
    · right; left
      have hd := pyEndsWith_decomp url "/api" h1
      apply String.ext
      rw [clean_url, h1, if_pos rfl]
      calc url.data
          = url.data.take (url.data.length - 4) ++ "/api".data := hd
        _ = (String.mk (url.data.take (url.data.length - 4))).data ++ "/api".data := rfl
    · by_cases h2 : pyEndsWith url "/" = true
      · right; right
        have hd := pyEndsWith_decomp url "/" h2
        apply String.ext
        rw [clean_url, if_neg (by simp [h1]), h2, if_pos rfl]
        calc url.data
            = url.data.take (url.data.length - 1) ++ "/".data := hd
          _ = (String.mk (url.data.take (url.data.length - 1))).data ++ "/".data := rfl
      · left
        rw [clean_url, if_neg (by simp [h1]), if_neg (by simp [h2])]
  · intro url
    exact clean_url_fixed_iff (clean_url url)

/-- Claim C7, witness: the examples hold; on `http://h:5000`, whose
normalized form ends in neither `/api` nor `/`, normalization is
idempotent; and on `http://h:5000//`, whose normalized form ends in a
slash, it is not. -/
theorem claim_C7_witness :
    clean_url "http://h:5000/api" = "http://h:5000" ∧
    clean_url (clean_url "http://h:5000") = clean_url "http://h:5000" ∧
    clean_url (clean_url "http://h:5000//") ≠ clean_url "http://h:5000//" :=
  ⟨claim_C7.1.1,
   (claim_C7.2.2 "http://h:5000").mpr ⟨by decide, by decide⟩,
   fun h => absurd ((claim_C7.2.2 "http://h:5000//").mp h) (by decide)⟩

/-- Claim C8, counterexample.  The claim says two sequential generation
calls for the same channel in extended mode produce two DIFFERENT
random keys.  The code just stores whatever `random.choices` returns
and never enforces distinctness: when the two draws coincide (possible,
since nothing relates the two samples), both calls record the same key.
Here both draws are `AAAAAAAAAA` and the registry entry after each of
the two calls is that same key. -/
theorem claim_C8_counterexample :
    (extClient._acall "p" none (some "c") "AAAAAAAAAA" none).self.genkeys
      = [(some "c", "AAAAAAAAAA")] ∧
    ((extClient._acall "p" none (some "c") "AAAAAAAAAA" none).self._acall
        "p" none (some "c") "AAAAAAAAAA" none).self.genkeys
      = [(some "c", "AAAAAAAAAA")] :=
  ⟨rfl, rfl⟩

/-- Claim C8 (amended): two sequential generation calls for the same
channel in extended mode record the first and then the second sampled
key for that channel — the recorded keys differ whenever the two random
draws differ (the code does not itself enforce distinctness) — and
after the second call the registry holds exactly one entry for that
channel, namely the second call's key. -/
theorem claim_C8 (self : KoboldApiLLM) (p1 p2 : String)
    (s1 s2 : Option (List String)) (ch : Option String) (k1 k2 : String)
    (r1 r2 : Option HttpResp) (hext : self.is_koboldcpp = true)
    (hnd : nodupKeys self.genkeys) :
    dictFind (self._acall p1 s1 ch k1 r1).self.genkeys ch = some k1 ∧
    dictFind ((self._acall p1 s1 ch k1 r1).self._acall p2 s2 ch k2 r2).self.genkeys ch
      = some k2 ∧
    countKey ((self._acall p1 s1 ch k1 r1).self._acall p2 s2 ch k2 r2).self.genkeys ch
      = 1 ∧
    (k1 ≠ k2 →
      dictFind (self._acall p1 s1 ch k1 r1).self.genkeys ch
        ≠ dictFind ((self._acall p1 s1 ch k1 r1).self._acall p2 s2 ch k2 r2).self.genkeys ch) := by
  obtain ⟨hg1, hf1⟩ := acall_state_ext self p1 s1 ch k1 r1 hext
  obtain ⟨hg2, hf2⟩ :=
    acall_state_ext (self._acall p1 s1 ch k1 r1).self p2 s2 ch k2 r2 hf1
  have e1 : dictFind (self._acall p1 s1 ch k1 r1).self.genkeys ch = some k1 := by
    rw [hg1]
    exact dictFind_dictSet_self _ _ _
  have e2 :
      dictFind ((self._acall p1 s1 ch k1 r1).self._acall p2 s2 ch k2 r2).self.genkeys ch
        = some k2 := by
    rw [hg2]
    exact dictFind_dictSet_self _ _ _
  refine ⟨e1, e2, ?_, ?_⟩
  · rw [hg2, hg1]
    exact countKey_dictSet_self _ _ _ (nodupKeys_dictSet _ _ _ hnd)
  · intro hne
    rw [e1, e2]
    simp [hne]

/-- Claim C8, witness for the amended theorem: two distinct draws for
channel `c` on the extended client leave exactly the second key
registered, and the registry entries after the first and second call
differ. -/
theorem claim_C8_witness :
    dictFind ((extClient._acall "p" none (some "c") "K1AAAAAAAA" none).self._acall
        "p" none (some "c") "K2AAAAAAAA" none).self.genkeys (some "c")
      = some "K2AAAAAAAA" ∧
    countKey ((extClient._acall "p" none (some "c") "K1AAAAAAAA" none).self._acall
        "p" none (some "c") "K2AAAAAAAA" none).self.genkeys (some "c") = 1 ∧
    dictFind (extClient._acall "p" none (some "c") "K1AAAAAAAA" none).self.genkeys (some "c")
      ≠ dictFind ((extClient._acall "p" none (some "c") "K1AAAAAAAA" none).self._acall
          "p" none (some "c") "K2AAAAAAAA" none).self.genkeys (some "c") :=
  ⟨(claim_C8 extClient "p" "p" none none (some "c") "K1AAAAAAAA" "K2AAAAAAAA" none none
      rfl List.nodup_nil).2.1,
   (claim_C8 extClient "p" "p" none none (some "c") "K1AAAAAAAA" "K2AAAAAAAA" none none
      rfl List.nodup_nil).2.2.1,
   (claim_C8 extClient "p" "p" none none (some "c") "K1AAAAAAAA" "K2AAAAAAAA" none none
      rfl List.nodup_nil).2.2.2 (by decide)⟩

/-- Claim C9, counterexample.  The claim says the blocking and
non-blocking call modes build the same request body for every input.
In extended mode `_acall` adds a `genkey` field that `_call` never
sends: on the extended client the async body carries
`genkey = K` while the sync body has no such field, so the two bodies
differ. -/
theorem claim_C9_counterexample :
    lookupJ (extClient._acall "p" none (some "c") "K" none).sentBody "genkey"
      = some (.jstr "K") ∧
    lookupJ (extClient._call "p" none none).1 "genkey" = none ∧
    (extClient._acall "p" none (some "c") "K" none).sentBody
      ≠ (extClient._call "p" none none).1 :=
  ⟨rfl, rfl, fun h => absurd (congrArg List.length h) (by decide)⟩

/-- Claim C9 (amended): the two call modes share the response-parsing
and stop-stripping logic exactly (the async copy of the handler equals
the sync one on every response), and in basic mode `_acall` is `_call`
with an unchanged registry; but in extended (koboldcpp) mode the async
request body additionally carries the sampled `genkey` field, so the
two modes differ there beyond the concurrency mechanism. -/
theorem claim_C9 (self : KoboldApiLLM) (prompt : String)
    (stop : Option (List String)) (ch : Option String) (k : String)
    (resp : Option HttpResp) :
    (∀ (resp' : Option HttpResp) (stop' : Option (List String)),
      acallResponse resp' stop' = callResponse resp' stop') ∧
    (self.is_koboldcpp = false →
      self._acall prompt stop ch k resp
        = ⟨self, (self._call prompt stop resp).1, (self._call prompt stop resp).2⟩) ∧
    (self.is_koboldcpp = true →
      (self._acall prompt stop ch k resp).sentBody
          = (self._call prompt stop resp).1 ++ [("genkey", JVal.jstr k)] ∧
      (self._acall prompt stop ch k resp).result = (self._call prompt stop resp).2) := by
  refine ⟨fun _ _ => rfl, ?_, ?_⟩
  · intro h
    simp [KoboldApiLLM._acall, KoboldApiLLM._call, h]
    rfl
  · intro h
    refine ⟨?_, ?_⟩
    · simp [KoboldApiLLM._acall, KoboldApiLLM._call, h]
    · simp [KoboldApiLLM._acall, h]
      rfl

/-- Claim C9, witness: concrete instances of the amended theorem — the
handlers agree on a concrete response, the basic client's async call is
its sync call, and the extended client's async body is the sync body
plus the `genkey` field. -/
theorem claim_C9_witness :
    acallResponse (some ⟨200, some (.jobj [])⟩) none
      = callResponse (some ⟨200, some (.jobj [])⟩) none ∧
    basicClient._acall "p" none (some "c") "K" none
      = ⟨basicClient, (basicClient._call "p" none none).1,
         (basicClient._call "p" none none).2⟩ ∧
    (extClient._acall "p" none (some "c") "K" none).sentBody
      = (extClient._call "p" none none).1 ++ [("genkey", JVal.jstr "K")] :=
  ⟨(claim_C9 basicClient "p" none (some "c") "K" none).1 (some ⟨200, some (.jobj [])⟩) none,
   (claim_C9 basicClient "p" none (some "c") "K" none).2.1 rfl,
   ((claim_C9 extClient "p" none (some "c") "K" none).2.2 rfl).1⟩

/-- Claim C10: in extended mode a generation call records the freshly
sampled key for the channel independently of how the HTTP exchange
turns out — the registry update is not rolled back on a transport or
parse failure, so after a failed call the channel's entry already holds
the new key. -/
theorem claim_C10 (self : KoboldApiLLM) (prompt : String)
    (stop : Option (List String)) (ch : Option String) (k : String)
    (resp : Option HttpResp) (hext : self.is_koboldcpp = true) :
    (self._acall prompt stop ch k resp).self.genkeys = dictSet self.genkeys ch k ∧
    dictFind (self._acall prompt stop ch k resp).self.genkeys ch = some k ∧
    (∀ e : PyErr, (self._acall prompt stop ch k resp).result = .error e →
      dictFind (self._acall prompt stop ch k resp).self.genkeys ch = some k) := by
  obtain ⟨hg, -⟩ := acall_state_ext self prompt stop ch k resp hext
  have hf : dictFind (self._acall prompt stop ch k resp).self.genkeys ch = some k := by
    rw [hg]
    exact dictFind_dictSet_self _ _ _
  exact ⟨hg, hf, fun _ _ => hf⟩

/-- Claim C10, witness: on the extended client a call whose HTTP
exchange fails outright (connection error) still leaves the fresh key
registered for the channel. -/
theorem claim_C10_witness :
    (extClient._acall "p" none (some "c") "K" none).result
      = .error PyErr.connectionError ∧
    dictFind (extClient._acall "p" none (some "c") "K" none).self.genkeys (some "c")
      = some "K" :=
  ⟨rfl,
   (claim_C10 extClient "p" none (some "c") "K" none rfl).2.2 PyErr.connectionError rfl⟩
